import Mathlib

/-!
Verification development for the passkey-demo wallet core
(repository: lazorkit-nextjs-passkey-demo).

The development shallowly embeds the repository's TypeScript core:

* the deterministic key derivation (deriveKeypairFromPasskey,
  createWalletFromPasskey in the Solana utilities module);
* the base64url codec used by the passkey module
  (bufferToBase64url, base64urlToBuffer);
* the sponsored-transaction assembly and dual-signing flow
  (createMemoTransaction, sendSponsoredTransaction,
  getSponsorWallet, executeGaslessTransaction).

Bytes are modelled as natural numbers below 256 (the content of a JS
Uint8Array cell).  External capabilities (the ledger connection, the
ed25519 expansion of a seed, random generation, the base58 decoding of a
configured secret) are passed in as explicit function parameters, so every
definition is executable and deterministic.  A Solana PublicKey value is
represented by its base58 string, the form in which the source code
compares, logs and stores it.
-/

/-- One step of the seed derivation, as written in deriveKeypairFromPasskey:
the byte stored at seed position i is
passkeyPublicKey[i % passkeyPublicKey.length] XOR (i * 7), truncated by the
Uint8Array store.  In JavaScript an out-of-range (or NaN) index read yields
undefined, which the XOR coerces to 0; List.getD with default 0 reproduces
this, including for the empty input where i % 0 = i. -/
def seedByte (passkeyPublicKey : List Nat) (i : Nat) : Nat :=
  (passkeyPublicKey.getD (i % passkeyPublicKey.length) 0 ^^^ i * 7) % 256

/-- The 32-byte seed computed by deriveKeypairFromPasskey's loop
for i in [0, 32). -/
def deriveSeed (passkeyPublicKey : List Nat) : List Nat :=
  (List.range 32).map (seedByte passkeyPublicKey)

/-- Model of a solana-web3 Keypair: the public key in its base58 string
form, plus the secret bytes. -/
structure KeypairM where
  publicKey : String
  secretKey : List Nat
deriving DecidableEq

/-- deriveKeypairFromPasskey: build the seed, then expand it with the
ledger's standard seed-to-keypair expansion (Keypair.fromSeed, an external
deterministic library function passed here as the parameter fromSeed). -/
def deriveKeypairFromPasskey (fromSeed : List Nat → KeypairM)
    (passkeyPublicKey : List Nat) : KeypairM :=
  fromSeed (deriveSeed passkeyPublicKey)

/-- The record returned by createWalletFromPasskey. -/
structure PasskeyWallet where
  keypair : KeypairM
  address : String
  publicKey : String
deriving DecidableEq

/-- createWalletFromPasskey: derive the keypair, then read off the address
(keypair.publicKey.toBase58()) and the public key string
(bs58.encode(keypair.publicKey.toBytes())).  Both are the base58 string of
the same public key, which is exactly how a PublicKey is represented here. -/
def createWalletFromPasskey (fromSeed : List Nat → KeypairM)
    (passkeyPublicKey : List Nat) : PasskeyWallet :=
  let keypair := deriveKeypairFromPasskey fromSeed passkeyPublicKey
  { keypair := keypair
    address := keypair.publicKey
    publicKey := keypair.publicKey }

/-- All entries of a byte sequence are genuine bytes (Uint8Array contents). -/
def validBytes (b : List Nat) : Prop :=
  ∀ x ∈ b, x < 256

instance : DecidablePred validBytes := fun b =>
  inferInstanceAs (Decidable (∀ x ∈ b, x < 256))

/-- Flip bit k (value 2 to the k) of the byte at position p. -/
def flipByteBit (b : List Nat) (p k : Nat) : List Nat :=
  b.set p (b.getD p 0 ^^^ 2 ^ k)

/-- The standard base64 alphabet, as used by the browser's btoa and atob. -/
def b64Chars : List Char :=
  ['A', 'B', 'C', 'D', 'E', 'F', 'G', 'H', 'I', 'J', 'K', 'L', 'M',
   'N', 'O', 'P', 'Q', 'R', 'S', 'T', 'U', 'V', 'W', 'X', 'Y', 'Z',
   'a', 'b', 'c', 'd', 'e', 'f', 'g', 'h', 'i', 'j', 'k', 'l', 'm',
   'n', 'o', 'p', 'q', 'r', 's', 't', 'u', 'v', 'w', 'x', 'y', 'z',
   '0', '1', '2', '3', '4', '5', '6', '7', '8', '9', '+', '/']

/-- The base64 character of a sextet value. -/
def b64CharOf (v : Nat) : Char :=
  b64Chars.getD v 'A'

/-- The sextet value of a base64 character (its alphabet index). -/
def b64ValOf (c : Char) : Nat :=
  b64Chars.indexOf c

/-- Base64 encoding of a byte list, three bytes to four characters with
trailing '=' padding: the semantics of btoa applied to the binary string
String.fromCharCode(...buffer). -/
def b64EncodeCore : List Nat → List Char
  | a :: b :: c :: rest =>
    b64CharOf (a / 4) :: b64CharOf (a % 4 * 16 + b / 16) ::
      b64CharOf (b % 16 * 4 + c / 64) :: b64CharOf (c % 64) ::
      b64EncodeCore rest
  | [a, b] =>
    [b64CharOf (a / 4), b64CharOf (a % 4 * 16 + b / 16),
     b64CharOf (b % 16 * 4), '=']
  | [a] =>
    [b64CharOf (a / 4), b64CharOf (a % 4 * 16), '=', '=']
  | [] => []

/-- Base64 decoding of a padded character list, four characters to three
bytes: the semantics of atob followed by the charCodeAt loop of
base64urlToBuffer. -/
def b64DecodeCore : List Char → List Nat
  | c1 :: c2 :: c3 :: c4 :: rest =>
    if c3 = '=' then
      [b64ValOf c1 * 4 + b64ValOf c2 / 16]
    else if c4 = '=' then
      [b64ValOf c1 * 4 + b64ValOf c2 / 16,
       b64ValOf c2 % 16 * 16 + b64ValOf c3 / 4]
    else
      (b64ValOf c1 * 4 + b64ValOf c2 / 16) ::
        (b64ValOf c2 % 16 * 16 + b64ValOf c3 / 4) ::
        (b64ValOf c3 % 4 * 64 + b64ValOf c4) ::
        b64DecodeCore rest
  | _ => []

/-- The url-safe substitution of bufferToBase64url:
'+' becomes '-' and '/' becomes '_'. -/
def toUrlChar (c : Char) : Char :=
  if c = '+' then '-' else if c = '/' then '_' else c

/-- The inverse substitution of base64urlToBuffer:
'-' becomes '+' and '_' becomes '/'. -/
def fromUrlChar (c : Char) : Char :=
  if c = '-' then '+' else if c = '_' then '/' else c

/-- bufferToBase64url: base64-encode the bytes, apply the url-safe
character substitutions, and strip the '=' padding. -/
def bufferToBase64url (buffer : List Nat) : String :=
  String.mk (((b64EncodeCore buffer).map toUrlChar).filter (fun c => c != '='))

/-- base64urlToBuffer: undo the url-safe substitutions, re-pad with '='
to a multiple of four characters (the padEnd computation of the source),
and base64-decode. -/
def base64urlToBuffer (s : String) : List Nat :=
  let base64 := s.data.map fromUrlChar
  b64DecodeCore (base64 ++ List.replicate ((4 - base64.length % 4) % 4) '=')

/-- The character content of bufferToBase64url's output: the url-mapped
base64 encoding with the '=' padding stripped. -/
def strippedUrl (l : List Nat) : List Char :=
  ((b64EncodeCore l).map toUrlChar).filter (fun c => c != '=')

/-- UTF-8 encoding of one Unicode scalar value, the byte production of
Buffer.from(memo, 'utf-8'). -/
def scalarUtf8 (n : Nat) : List Nat :=
  if n < 128 then [n]
  else if n < 2048 then [192 + n / 64, 128 + n % 64]
  else if n < 65536 then
    [224 + n / 4096, 128 + n / 64 % 64, 128 + n % 64]
  else
    [240 + n / 262144, 128 + n / 4096 % 64, 128 + n / 64 % 64, 128 + n % 64]

/-- UTF-8 bytes of a string. -/
def utf8Bytes (s : String) : List Nat :=
  s.data.flatMap (fun c => scalarUtf8 c.toNat)

/-- The error taxonomy of the sponsored-transaction flow. -/
inductive TxError where
  | InvalidInputError
  | MissingBlockhashError
  | SignerMismatchError
  | IncompleteSignatureError
  | InvalidStateError
deriving DecidableEq

/-- One account reference of an instruction, as in the keys array of a
TransactionInstruction. -/
structure AccountMeta where
  pubkey : String
  isSigner : Bool
  isWritable : Bool
deriving DecidableEq

/-- A TransactionInstruction: account references, target program, and
opaque instruction data bytes. -/
structure TransactionInstruction where
  keys : List AccountMeta
  programId : String
  data : List Nat
deriving DecidableEq

/-- A recorded signature slot: the signer identity and, once signed, the
signature bytes. -/
structure SignaturePair where
  publicKey : String
  signature : Option (List Nat)
deriving DecidableEq

/-- A solana-web3 Transaction as the source uses it: an ordered
instruction list, an optional fee payer, an optional recent blockhash,
and the signature slots. -/
structure Transaction where
  instructions : List TransactionInstruction
  feePayer : Option String
  recentBlockhash : Option String
  signatures : List SignaturePair
deriving DecidableEq

/-- new Transaction(): empty instruction list, no fee payer, no
blockhash, no signatures. -/
def Transaction.new : Transaction :=
  { instructions := [], feePayer := none, recentBlockhash := none,
    signatures := [] }

/-- transaction.add(instruction): append an instruction. -/
def Transaction.addInstruction (tx : Transaction)
    (ix : TransactionInstruction) : Transaction :=
  { tx with instructions := tx.instructions ++ [ix] }

/-- The fixed memo program address used by createMemoTransaction. -/
def MEMO_PROGRAM_ID : String :=
  "MemoSq4gqABAXKb96qnH8TysNcWxMyWCqXgDLGmfcHr"

/-- createMemoTransaction: build the single memo instruction naming the
user wallet as a non-writable required signer and carrying the memo text
as UTF-8 data, add it to a fresh transaction, set the sponsor as fee
payer, and record the recent blockhash fetched from the connection (the
external getLatestBlockhash result is the blockhash parameter). -/
def createMemoTransaction (userWallet : String) (memo : String)
    (sponsorKeypair : KeypairM) (blockhash : String) : Transaction :=
  let memoInstruction : TransactionInstruction :=
    { keys := [{ pubkey := userWallet, isSigner := true, isWritable := false }]
      programId := MEMO_PROGRAM_ID
      data := utf8Bytes memo }
  let transaction := Transaction.new.addInstruction memoInstruction
  { transaction with
      feePayer := some sponsorKeypair.publicKey
      recentBlockhash := some blockhash }

/-- Modelled from the spec: the identities whose signatures a serialized
envelope must carry — every identity referenced as a required signer in
any instruction, plus the fee-payer identity (the compiled signer list of
the external web3 library, deduplicated). -/
def Transaction.requiredSigners (tx : Transaction) : List String :=
  ((match tx.feePayer with | some f => [f] | none => []) ++
    tx.instructions.flatMap
      (fun ix => (ix.keys.filter (fun m => m.isSigner)).map
        (fun m => m.pubkey))).dedup

/-- Whether the envelope carries a signature for the given identity. -/
def Transaction.hasSignature (tx : Transaction) (pk : String) : Bool :=
  tx.signatures.any (fun sp => sp.publicKey == pk && sp.signature.isSome)

/-- A length-prefixed byte rendering of a string, used to lay out the
canonical message bytes. -/
def encodePiece (s : String) : List Nat :=
  s.length :: utf8Bytes s

/-- Modelled from the spec: the canonical serialization of the unsigned
envelope over which each signer signs (the compiled message of the
external web3 library; the exact wire layout is abstracted as a
length-prefixed rendering of the envelope's fields). -/
def Transaction.compiledMessage (tx : Transaction) : List Nat :=
  (match tx.feePayer with | some f => encodePiece f | none => []) ++
    (match tx.recentBlockhash with | some h => encodePiece h | none => []) ++
    tx.instructions.flatMap
      (fun ix => encodePiece ix.programId ++
        ix.keys.flatMap
          (fun m => encodePiece m.pubkey ++
            [cond m.isSigner 1 0, cond m.isWritable 1 0]) ++
        ix.data)

/-- Record a signature for the given identity: update its slot when one
exists, append a new slot otherwise. -/
def upsertSignature (sigs : List SignaturePair) (pk : String)
    (sig : List Nat) : List SignaturePair :=
  if sigs.any (fun sp => sp.publicKey == pk) then
    sigs.map (fun sp =>
      if sp.publicKey == pk then { sp with signature := some sig } else sp)
  else
    sigs ++ [{ publicKey := pk, signature := some sig }]

/-- Modelled from the spec: one partial-sign step of the dual-signer
protocol.  The signer signs the canonical message bytes of the envelope
(signFn is the external ed25519 signing primitive applied to the signer's
secret) and the envelope records the (identity, signature) pair; the
canonical message itself is untouched. -/
def Transaction.applySign (tx : Transaction)
    (signFn : List Nat → List Nat → List Nat) (kp : KeypairM) : Transaction :=
  { tx with
      signatures := upsertSignature tx.signatures kp.publicKey
        (signFn kp.secretKey tx.compiledMessage) }

/-- The wire bytes of a fully signed envelope: the signature bytes
followed by the canonical message. -/
def Transaction.wireBytes (tx : Transaction) : List Nat :=
  tx.signatures.flatMap (fun sp => (sp.signature.getD [])) ++ tx.compiledMessage

/-- Modelled from the spec: serialize checks that every required signer
slot is signed and fails with IncompleteSignatureError otherwise; only on
success does it produce wire bytes. -/
def Transaction.serialize (tx : Transaction) : Except TxError (List Nat) :=
  if tx.requiredSigners.all (fun pk => tx.hasSignature pk) then
    Except.ok tx.wireBytes
  else
    Except.error TxError.IncompleteSignatureError

/-- sendSponsoredTransaction: the user signs, the sponsor signs, the
envelope is serialized, and only the resulting bytes are handed to the
external submission capability (sendRawTransaction, the submit
parameter), which returns the transaction signature string. -/
def sendSponsoredTransaction (signFn : List Nat → List Nat → List Nat)
    (submit : List Nat → String) (transaction : Transaction)
    (userKeypair sponsorKeypair : KeypairM) : Except TxError String :=
  let t1 := transaction.applySign signFn userKeypair
  let t2 := t1.applySign signFn sponsorKeypair
  match t2.serialize with
  | Except.ok bytes => Except.ok (submit bytes)
  | Except.error e => Except.error e

/-- The placeholder value that the sponsor configuration check rejects. -/
def placeholderKey : String :=
  "your_base58_encoded_private_key_here"

/-- The warning text logged when a configured sponsor key fails to
decode. -/
def invalidSponsorWarning : String :=
  "Invalid sponsor key, using random sponsor"

/-- getSponsorWallet: when a sponsor secret is configured (truthy and not
the placeholder) and decodes (decodeKey models bs58 decoding plus
Keypair.fromSecretKey, none for a throw), use it; on a decode failure log
a warning and fall back; when the secret is absent, empty, or the
placeholder, fall back with no log at all.  The fallback keypair is the
process's Keypair.generate() result, passed in as the generated
parameter; the second component collects the console warnings. -/
def getSponsorWallet (sponsorKey : Option String)
    (decodeKey : String → Option KeypairM) (generated : KeypairM) :
    KeypairM × List String :=
  match sponsorKey with
  | some k =>
    if k ≠ "" ∧ k ≠ placeholderKey then
      match decodeKey k with
      | some kp => (kp, [])
      | none => (generated, [invalidSponsorWarning])
    else
      (generated, [])
  | none => (generated, [])

/-- The record returned by executeGaslessTransaction: the transaction
signature, the sponsor's address, and the estimated fee saved.  It
carries no field telling the caller whether the sponsor was ephemeral. -/
structure GaslessResult where
  signature : String
  sponsor : String
  feeSaved : ℚ
deriving DecidableEq

/-- The fee estimate hard-coded by executeGaslessTransaction
(0.000005 SOL, about 5000 lamports). -/
def feeSavedEstimate : ℚ := 5 / 1000000

/-- executeGaslessTransaction: resolve the sponsor, build the memo
transaction with the wallet's address as subject, log the progress
messages, send the dual-signed transaction, and return the result record.
The first component is the ordered console output of the flow. -/
def executeGaslessTransaction (sponsorKey : Option String)
    (decodeKey : String → Option KeypairM) (generated : KeypairM)
    (walletAddress : String) (walletKeypair : KeypairM) (memo : String)
    (blockhash : String) (signFn : List Nat → List Nat → List Nat)
    (submit : List Nat → String) :
    List String × Except TxError GaslessResult :=
  match getSponsorWallet sponsorKey decodeKey generated with
  | (sponsor, warns) =>
    let tx := createMemoTransaction walletAddress memo sponsor blockhash
    let logs := ["Creating gasless transaction..."] ++ warns ++
      ["Transaction created with sponsor: " ++ sponsor.publicKey,
       "Fee payer: " ++ sponsor.publicKey]
    match sendSponsoredTransaction signFn submit tx walletKeypair sponsor with
    | Except.ok sig =>
      (logs ++ ["Transaction sent: " ++ sig],
        Except.ok { signature := sig, sponsor := sponsor.publicKey,
                    feeSaved := feeSavedEstimate })
    | Except.error e => (logs, Except.error e)

theorem deriveSeed_length (b : List Nat) : (deriveSeed b).length = 32 := by
  simp [deriveSeed]

theorem deriveSeed_getD (b : List Nat) (i : Nat) (hi : i < 32) :
    (deriveSeed b).getD i 0 = seedByte b i := by
  unfold deriveSeed
  rw [List.getD_eq_getElem _ _ (by simpa using hi)]
  simp

theorem xor_lt_256 {a b : Nat} (ha : a < 256) (hb : b < 256) :
    a ^^^ b < 256 := by
  have h : Nat.bitwise bne a b < 2 ^ 8 :=
    Nat.bitwise_lt (by omega) (by omega)
  simpa using h

theorem getD_lt_of_validBytes {b : List Nat} (hb : validBytes b) {j : Nat}
    (hj : j < b.length) : b.getD j 0 < 256 := by
  rw [List.getD_eq_getElem _ _ hj]
  exact hb _ (List.getElem_mem _)

theorem seedByte_eq (b : List Nat) (hb : validBytes b) (i : Nat)
    (hi : i < 32) :
    seedByte b i = b.getD (i % b.length) 0 ^^^ i * 7 := by
  unfold seedByte
  have hidx : b.getD (i % b.length) 0 < 256 := by
    rcases b with _ | ⟨x, xs⟩
    · simp
    · exact getD_lt_of_validBytes hb (Nat.mod_lt _ (by simp))
  exact Nat.mod_eq_of_lt (xor_lt_256 hidx (by omega))

/-- C1: for every non-empty byte sequence, the derived seed has exactly 32
bytes, the byte at each position i below 32 is the input byte at position
i mod len XORed with i * 7, and the derived keypair is obtained from that
seed by the ledger's seed-to-keypair expansion; in particular a length-one
input does not fail and still fills all 32 positions. -/
theorem claim1_derive_spec (fromSeed : List Nat → KeypairM) (b : List Nat)
    (_hne : 0 < b.length) (hb : validBytes b) :
    (deriveSeed b).length = 32 ∧
    (∀ i, i < 32 →
      (deriveSeed b).getD i 0 = b.getD (i % b.length) 0 ^^^ i * 7) ∧
    deriveKeypairFromPasskey fromSeed b = fromSeed (deriveSeed b) := by
  refine ⟨deriveSeed_length b, ?_, rfl⟩
  intro i hi
  rw [deriveSeed_getD b i hi, seedByte_eq b hb i hi]

/-- C1 witness: the theorem applied to the one-byte input with value 5 and
a concrete expansion function. -/
theorem claim1_witness :
    0 < ([5] : List Nat).length ∧ validBytes [5] ∧
    (deriveSeed [5]).length = 32 ∧
    (∀ i, i < 32 →
      (deriveSeed [5]).getD i 0 =
        ([5] : List Nat).getD (i % ([5] : List Nat).length) 0 ^^^ i * 7) ∧
    deriveKeypairFromPasskey (fun s => { publicKey := "P", secretKey := s })
      [5] =
      (fun s => ({ publicKey := "P", secretKey := s } : KeypairM))
      (deriveSeed [5]) :=
  ⟨by decide, by decide,
    claim1_derive_spec (fun s => { publicKey := "P", secretKey := s }) [5]
      (by decide) (by decide)⟩

/-- C2: derivation is deterministic — the seed, the keypair and the
address string of the constructed wallet depend on the input bytes only:
two evaluations on equal byte sequences agree, for every expansion of the
seed, with no randomness, clock or hidden state in the definitions. -/
theorem claim2_derive_deterministic (fromSeed : List Nat → KeypairM)
    (b1 b2 : List Nat) (h : b1 = b2) :
    deriveSeed b1 = deriveSeed b2 ∧
    deriveKeypairFromPasskey fromSeed b1 =
      deriveKeypairFromPasskey fromSeed b2 ∧
    createWalletFromPasskey fromSeed b1 =
      createWalletFromPasskey fromSeed b2 := by
  subst h
  exact ⟨rfl, rfl, rfl⟩

/-- C2 witness: the theorem applied to two evaluations on the byte
sequence 1, 2, 3. -/
theorem claim2_witness :
    ([1, 2, 3] : List Nat) = [1, 2, 3] ∧
    deriveSeed [1, 2, 3] = deriveSeed [1, 2, 3] ∧
    deriveKeypairFromPasskey (fun s => { publicKey := "P", secretKey := s })
        [1, 2, 3] =
      deriveKeypairFromPasskey (fun s => { publicKey := "P", secretKey := s })
        [1, 2, 3] ∧
    createWalletFromPasskey (fun s => { publicKey := "P", secretKey := s })
        [1, 2, 3] =
      createWalletFromPasskey (fun s => { publicKey := "P", secretKey := s })
        [1, 2, 3] :=
  ⟨rfl,
    claim2_derive_deterministic
      (fun s => { publicKey := "P", secretKey := s }) [1, 2, 3] [1, 2, 3] rfl⟩

/-- C4 counterexample: on the empty byte sequence the derivation does not
fail at all — the JavaScript NaN-index read coerces to 0, so the loop
completes and yields the concrete 32-byte seed whose byte i is i * 7, and
the keypair construction succeeds on it.  This refutes the claim that an
empty input fails with InvalidInputError. -/
theorem claim4_counterexample :
    deriveSeed [] =
      [0, 7, 14, 21, 28, 35, 42, 49, 56, 63, 70, 77, 84, 91, 98, 105,
       112, 119, 126, 133, 140, 147, 154, 161, 168, 175, 182, 189, 196,
       203, 210, 217] ∧
    (deriveSeed []).length = 32 ∧
    deriveKeypairFromPasskey (fun s => { publicKey := "P", secretKey := s })
      [] =
      { publicKey := "P",
        secretKey :=
          [0, 7, 14, 21, 28, 35, 42, 49, 56, 63, 70, 77, 84, 91, 98, 105,
           112, 119, 126, 133, 140, 147, 154, 161, 168, 175, 182, 189, 196,
           203, 210, 217] } := by
  refine ⟨by decide, by decide, ?_⟩
  show ({ publicKey := "P", secretKey := deriveSeed [] } : KeypairM) = _
  have h : deriveSeed [] =
      [0, 7, 14, 21, 28, 35, 42, 49, 56, 63, 70, 77, 84, 91, 98, 105,
       112, 119, 126, 133, 140, 147, 154, 161, 168, 175, 182, 189, 196,
       203, 210, 217] := by decide
  rw [h]

/-- C4 amended: the derivation has no failure path.  Every input, the
empty sequence included, yields a full 32-byte seed; on the empty input
the out-of-range reads coerce to 0, so byte i of the seed is i * 7.  The
derivation succeeds on all inputs, not only those of length at least 1. -/
theorem claim4_amended :
    (∀ b : List Nat, (deriveSeed b).length = 32) ∧
    (∀ i, i < 32 → (deriveSeed []).getD i 0 = i * 7) := by
  exact ⟨deriveSeed_length, by decide⟩

/-- C7 counterexample: flipping bit 0 of byte 32 of a 33-byte input
changes the input but leaves the derived seed unchanged in every
position, because positions at index 32 and beyond are never read by the
derivation loop.  This refutes the claim for arbitrary single-bit
flips. -/
theorem claim7_counterexample :
    flipByteBit (List.replicate 33 0) 32 0 ≠ List.replicate 33 0 ∧
    deriveSeed (flipByteBit (List.replicate 33 0) 32 0) =
      deriveSeed (List.replicate 33 0) := by
  constructor
  · decide
  · decide

/-- C7 amended: flipping a single bit of a byte that the derivation can
reach — a position below both the input length and 32 — changes the
derived seed in at least one byte position; bits of bytes at positions 32
and beyond do not influence the seed. -/
theorem claim7_amended (b : List Nat) (p k : Nat) (hb : validBytes b)
    (hp : p < b.length) (hp32 : p < 32) (hk : k < 8) :
    deriveSeed (flipByteBit b p k) ≠ deriveSeed b := by
  intro heq
  have hlen : (flipByteBit b p k).length = b.length := by
    simp [flipByteBit]
  have hgetD : (flipByteBit b p k).getD p 0 = b.getD p 0 ^^^ 2 ^ k := by
    unfold flipByteBit
    rw [List.getD_eq_getElem _ _ (by simpa using hp)]
    simp
  have hvalid : validBytes (flipByteBit b p k) := by
    intro x hx
    rcases List.mem_or_eq_of_mem_set hx with hmem | hval
    · exact hb x hmem
    · subst hval
      have h1 : b.getD p 0 < 256 := getD_lt_of_validBytes hb hp
      have h2 : (2 : Nat) ^ k < 256 := by
        calc (2 : Nat) ^ k < 2 ^ 8 := Nat.pow_lt_pow_right (by omega) hk
        _ = 256 := by norm_num
      exact xor_lt_256 h1 h2
  have hbyte : seedByte (flipByteBit b p k) p = seedByte b p := by
    have e1 := deriveSeed_getD (flipByteBit b p k) p hp32
    have e2 := deriveSeed_getD b p hp32
    rw [← e1, ← e2, heq]
  rw [seedByte_eq _ hvalid p hp32, seedByte_eq _ hb p hp32] at hbyte
  rw [hlen, Nat.mod_eq_of_lt hp] at hbyte
  rw [hgetD] at hbyte
  have hcancel : b.getD p 0 ^^^ 2 ^ k = b.getD p 0 :=
    Nat.xor_left_inj.mp hbyte
  have h0 : b.getD p 0 ^^^ 2 ^ k = b.getD p 0 ^^^ 0 := by
    simpa using hcancel
  exact absurd (Nat.xor_right_inj.mp h0) (by positivity)

/-- C7 witness: the amended theorem applied to the one-byte input 5,
flipping bit 0 of byte 0. -/
theorem claim7_witness :
    validBytes [5] ∧ 0 < ([5] : List Nat).length ∧ (0 : Nat) < 32 ∧
    (0 : Nat) < 8 ∧
    deriveSeed (flipByteBit [5] 0 0) ≠ deriveSeed [5] :=
  ⟨by decide, by decide, by decide, by decide,
    claim7_amended [5] 0 0 (by decide) (by decide) (by decide) (by decide)⟩

/-- C9: input bytes beyond position 31 never influence the derivation;
two inputs of length at least 32 that agree on their first 32 bytes yield
the same seed, the same keypair, and the same wallet (address string
included), for every seed expansion. -/
theorem claim9_prefix_determines (fromSeed : List Nat → KeypairM)
    (b1 b2 : List Nat) (h1 : 32 ≤ b1.length) (h2 : 32 ≤ b2.length)
    (hagree : b1.take 32 = b2.take 32) :
    deriveSeed b1 = deriveSeed b2 ∧
    deriveKeypairFromPasskey fromSeed b1 =
      deriveKeypairFromPasskey fromSeed b2 ∧
    createWalletFromPasskey fromSeed b1 =
      createWalletFromPasskey fromSeed b2 := by
  have hseed : deriveSeed b1 = deriveSeed b2 := by
    unfold deriveSeed
    refine List.map_congr_left ?_
    intro i hi
    have hi32 : i < 32 := List.mem_range.mp hi
    have hm1 : i % b1.length = i := Nat.mod_eq_of_lt (by omega)
    have hm2 : i % b2.length = i := Nat.mod_eq_of_lt (by omega)
    have hget : b1[i]? = b2[i]? := by
      rw [← List.getElem?_take_of_lt (l := b1) (n := 32) hi32,
        ← List.getElem?_take_of_lt (l := b2) (n := 32) hi32, hagree]
    unfold seedByte
    rw [hm1, hm2, List.getD_eq_getElem?_getD, List.getD_eq_getElem?_getD,
      hget]
  refine ⟨hseed, ?_, ?_⟩
  · unfold deriveKeypairFromPasskey
    rw [hseed]
  · unfold createWalletFromPasskey deriveKeypairFromPasskey
    rw [hseed]

/-- C9 witness: the theorem applied to a 32-byte input and its extension
by one extra byte. -/
theorem claim9_witness :
    32 ≤ (List.range 32).length ∧ 32 ≤ (List.range 32 ++ [99]).length ∧
    (List.range 32).take 32 = (List.range 32 ++ [99]).take 32 ∧
    deriveSeed (List.range 32) = deriveSeed (List.range 32 ++ [99]) ∧
    deriveKeypairFromPasskey (fun s => { publicKey := "P", secretKey := s })
        (List.range 32) =
      deriveKeypairFromPasskey (fun s => { publicKey := "P", secretKey := s })
        (List.range 32 ++ [99]) ∧
    createWalletFromPasskey (fun s => { publicKey := "P", secretKey := s })
        (List.range 32) =
      createWalletFromPasskey (fun s => { publicKey := "P", secretKey := s })
        (List.range 32 ++ [99]) :=
  ⟨by decide, by decide, by decide,
    claim9_prefix_determines (fun s => { publicKey := "P", secretKey := s })
      (List.range 32) (List.range 32 ++ [99]) (by decide) (by decide)
      (by decide)⟩


theorem hasSignature_upsert_ne (sigs : List SignaturePair) (pk qk : String)
    (s : List Nat) (hne : qk ≠ pk)
    (h : (sigs.any fun sp => sp.publicKey == pk && sp.signature.isSome)
      = false) :
    ((upsertSignature sigs qk s).any
      fun sp => sp.publicKey == pk && sp.signature.isSome) = false := by
  unfold upsertSignature
  rw [List.any_eq_false] at h
  split
  · rw [List.any_map, List.any_eq_false]
    intro sp hsp
    by_cases hq : sp.publicKey = qk
    · simp [Function.comp, hq, hne]
    · simpa [Function.comp, hq] using h sp hsp
  · rw [List.any_append]
    have h1 : (sigs.any fun sp => sp.publicKey == pk && sp.signature.isSome)
        = false := List.any_eq_false.mpr h
    simp [h1, hne]

theorem requiredSigners_applySign (tx : Transaction)
    (signFn : List Nat → List Nat → List Nat) (kp : KeypairM) :
    (tx.applySign signFn kp).requiredSigners = tx.requiredSigners := rfl

theorem hasSignature_applySign_ne (tx : Transaction)
    (signFn : List Nat → List Nat → List Nat) (kp : KeypairM) (pk : String)
    (hne : kp.publicKey ≠ pk) (h : tx.hasSignature pk = false) :
    (tx.applySign signFn kp).hasSignature pk = false :=
  hasSignature_upsert_ne tx.signatures pk kp.publicKey _ hne h

theorem serialize_of_missing (t : Transaction) (pk : String)
    (hm : pk ∈ t.requiredSigners) (hu : t.hasSignature pk = false) :
    t.serialize = Except.error TxError.IncompleteSignatureError := by
  unfold Transaction.serialize
  have hall : (t.requiredSigners.all fun q => t.hasSignature q) = false :=
    List.all_eq_false.mpr ⟨pk, hm, by simp [hu]⟩
  simp [hall]

/-- C3: serializing an envelope in which some required signer slot is
unsigned fails with IncompleteSignatureError; in particular an envelope
signed only by the subject (whose identity differs from the unsigned
required slot, typically the sponsor fee payer) still fails to serialize,
and the submission capability is never handed any bytes — the mapped
submission result is the same error. -/
theorem claim3_serialize_incomplete (tx : Transaction) (pk : String)
    (hmem : pk ∈ tx.requiredSigners) (hun : tx.hasSignature pk = false) :
    tx.serialize = Except.error TxError.IncompleteSignatureError ∧
    ∀ (signFn : List Nat → List Nat → List Nat) (user : KeypairM)
      (submit : List Nat → String), user.publicKey ≠ pk →
      (tx.applySign signFn user).serialize =
        Except.error TxError.IncompleteSignatureError ∧
      Except.map submit ((tx.applySign signFn user).serialize) =
        Except.error TxError.IncompleteSignatureError := by
  refine ⟨serialize_of_missing tx pk hmem hun, ?_⟩
  intro signFn user submit hne
  have hm2 : pk ∈ (tx.applySign signFn user).requiredSigners := by
    rw [requiredSigners_applySign]
    exact hmem
  have hu2 : (tx.applySign signFn user).hasSignature pk = false :=
    hasSignature_applySign_ne tx signFn user pk hne hun
  have hs := serialize_of_missing _ pk hm2 hu2
  exact ⟨hs, by rw [hs]; rfl⟩

/-- C3 witness: a fresh memo envelope whose fee payer S is a required
signer, signed only by the subject U; serialization fails and no bytes
reach the submission function. -/
theorem claim3_witness :
    ("S" : String) ∈
      (createMemoTransaction "U" "hi" { publicKey := "S", secretKey := [9] }
        "h").requiredSigners ∧
    (createMemoTransaction "U" "hi" { publicKey := "S", secretKey := [9] }
        "h").hasSignature "S" = false ∧
    ({ publicKey := "U", secretKey := [1] } : KeypairM).publicKey ≠ "S" ∧
    ((createMemoTransaction "U" "hi" { publicKey := "S", secretKey := [9] }
        "h").applySign (fun _ _ => [0])
        { publicKey := "U", secretKey := [1] }).serialize =
      Except.error TxError.IncompleteSignatureError ∧
    Except.map (fun _ => "sig")
      (((createMemoTransaction "U" "hi"
          { publicKey := "S", secretKey := [9] } "h").applySign
          (fun _ _ => [0]) { publicKey := "U", secretKey := [1] }).serialize) =
      Except.error TxError.IncompleteSignatureError := by
  have hmem : ("S" : String) ∈
      (createMemoTransaction "U" "hi" { publicKey := "S", secretKey := [9] }
        "h").requiredSigners := by decide
  have hun : (createMemoTransaction "U" "hi"
      { publicKey := "S", secretKey := [9] } "h").hasSignature "S"
      = false := by decide
  have hne : ({ publicKey := "U", secretKey := [1] } : KeypairM).publicKey
      ≠ "S" := by decide
  have hmain := (claim3_serialize_incomplete
    (createMemoTransaction "U" "hi" { publicKey := "S", secretKey := [9] }
      "h") "S" hmem hun).2 (fun _ _ => [0])
    { publicKey := "U", secretKey := [1] } (fun _ => "sig") hne
  exact ⟨hmem, hun, hne, hmain.1, hmain.2⟩

/-- C5 counterexample: assembling a memo envelope with the empty
blockhash does not fail — createMemoTransaction contains no blockhash
validation and no failure path, and simply records the empty string as
the envelope's recentBlockhash, refuting the claim that assembly with an
empty blockhash fails with MissingBlockhashError before signing. -/
theorem claim5_counterexample :
    createMemoTransaction "U" "hi" { publicKey := "S", secretKey := [9] }
        "" =
      { instructions :=
          [{ keys := [{ pubkey := "U", isSigner := true,
                        isWritable := false }],
             programId := MEMO_PROGRAM_ID,
             data := [104, 105] }],
        feePayer := some "S",
        recentBlockhash := some "",
        signatures := [] } := by
  decide

/-- C5 amended: assembly performs no blockhash validation; for every
blockhash string, the empty string included, createMemoTransaction
returns an envelope (it cannot fail) whose recentBlockhash is the given
string verbatim, and the envelope carries no signatures yet — any
missing-blockhash failure can only surface later, in the external
library, not at assembly time. -/
theorem claim5_amended (userWallet memo : String) (sponsorKeypair : KeypairM)
    (blockhash : String) :
    (createMemoTransaction userWallet memo sponsorKeypair
        blockhash).recentBlockhash = some blockhash ∧
    (createMemoTransaction userWallet memo sponsorKeypair
        blockhash).signatures = [] :=
  ⟨rfl, rfl⟩

/-- C6: the memo transaction contains exactly one instruction, targeting
the fixed memo program address, naming the subject identity as a required
signer with no write permission and carrying the UTF-8 bytes of the memo
payload as its instruction data; the fee payer is the sponsor's public
identity and the recent blockhash is recorded as given. -/
theorem claim6_memo_transaction (userWallet : String) (memo : String)
    (sponsorKeypair : KeypairM) (blockhash : String) :
    (createMemoTransaction userWallet memo sponsorKeypair
        blockhash).instructions =
      [{ keys := [{ pubkey := userWallet, isSigner := true,
                    isWritable := false }],
         programId := MEMO_PROGRAM_ID,
         data := utf8Bytes memo }] ∧
    (createMemoTransaction userWallet memo sponsorKeypair
        blockhash).feePayer = some sponsorKeypair.publicKey ∧
    (createMemoTransaction userWallet memo sponsorKeypair
        blockhash).recentBlockhash = some blockhash :=
  ⟨rfl, rfl, rfl⟩

/-- C8 counterexample: with no sponsor secret configured the fallback is
silent — getSponsorWallet returns the freshly generated keypair with an
empty warning log, and the whole executeGaslessTransaction flow produces
output (logs and result record) identical to a run with a persisted,
successfully decoded sponsor secret, so the caller cannot tell that an
ephemeral sponsor was substituted. -/
theorem claim8_counterexample :
    getSponsorWallet none (fun _ => none)
        { publicKey := "G", secretKey := [7] } =
      ({ publicKey := "G", secretKey := [7] }, []) ∧
    executeGaslessTransaction none (fun _ => none)
        { publicKey := "G", secretKey := [7] } "U"
        { publicKey := "U", secretKey := [1] } "hi" "BH" (fun _ _ => [0])
        (fun _ => "sig") =
      executeGaslessTransaction (some "K")
        (fun _ => some { publicKey := "G", secretKey := [7] })
        { publicKey := "G", secretKey := [7] } "U"
        { publicKey := "U", secretKey := [1] } "hi" "BH" (fun _ _ => [0])
        (fun _ => "sig") := by
  exact ⟨rfl, rfl⟩

/-- C8 amended: the fallback to an ephemeral sponsor is observable only
when a configured, non-empty, non-placeholder sponsor key fails to decode
(one warning is logged); when the sponsor secret is absent, empty, or the
placeholder, the generated ephemeral sponsor is substituted silently,
with no log and no warning value returned to the caller. -/
theorem claim8_amended (decodeKey : String → Option KeypairM)
    (generated : KeypairM) (k : String) (h1 : k ≠ "")
    (h2 : k ≠ placeholderKey) (h3 : decodeKey k = none) :
    getSponsorWallet none decodeKey generated = (generated, []) ∧
    getSponsorWallet (some "") decodeKey generated = (generated, []) ∧
    getSponsorWallet (some placeholderKey) decodeKey generated
      = (generated, []) ∧
    getSponsorWallet (some k) decodeKey generated
      = (generated, [invalidSponsorWarning]) := by
  refine ⟨rfl, ?_, ?_, ?_⟩
  · simp [getSponsorWallet]
  · simp [getSponsorWallet]
  · simp [getSponsorWallet, h1, h2, h3]

/-- C8 witness: the amended theorem applied to a configured key "bad"
that fails to decode, with a concrete generated keypair. -/
theorem claim8_witness :
    ("bad" : String) ≠ "" ∧ ("bad" : String) ≠ placeholderKey ∧
    (fun _ => (none : Option KeypairM)) "bad" = none ∧
    getSponsorWallet none (fun _ => none)
        { publicKey := "G", secretKey := [7] } =
      ({ publicKey := "G", secretKey := [7] }, []) ∧
    getSponsorWallet (some "") (fun _ => none)
        { publicKey := "G", secretKey := [7] } =
      ({ publicKey := "G", secretKey := [7] }, []) ∧
    getSponsorWallet (some placeholderKey) (fun _ => none)
        { publicKey := "G", secretKey := [7] } =
      ({ publicKey := "G", secretKey := [7] }, []) ∧
    getSponsorWallet (some "bad") (fun _ => none)
        { publicKey := "G", secretKey := [7] } =
      ({ publicKey := "G", secretKey := [7] }, [invalidSponsorWarning]) := by
  have h := claim8_amended (fun _ => none)
    { publicKey := "G", secretKey := [7] } "bad" (by decide) (by decide) rfl
  exact ⟨by decide, by decide, rfl, h.1, h.2.1, h.2.2.1, h.2.2.2⟩


theorem b64CharOf_ne_pad : ∀ v, v < 64 → ¬ b64CharOf v = '=' := by
  decide

theorem toUrl_ne_pad : ∀ v, v < 64 → ¬ toUrlChar (b64CharOf v) = '=' := by
  decide

theorem fromUrl_toUrl_b64 :
    ∀ v, v < 64 → fromUrlChar (toUrlChar (b64CharOf v)) = b64CharOf v := by
  decide

theorem b64ValOf_charOf : ∀ v, v < 64 → b64ValOf (b64CharOf v) = v := by
  decide

theorem toUrlChar_pad : toUrlChar '=' = '=' := by
  decide

theorem filter_pad_cons (l : List Char) :
    List.filter (fun c => c != '=') ('=' :: l)
      = List.filter (fun c => c != '=') l :=
  List.filter_cons_of_neg (by decide)

theorem filter_keep_cons (c : Char) (l : List Char) (hc : ¬ c = '=') :
    List.filter (fun c => c != '=') (c :: l)
      = c :: List.filter (fun c => c != '=') l :=
  List.filter_cons_of_pos (by simpa using hc)

theorem pad_cons4 (e1 e2 e3 e4 : Char) (M : List Char) :
    (e1 :: e2 :: e3 :: e4 :: M) ++
      List.replicate ((4 - (e1 :: e2 :: e3 :: e4 :: M).length % 4) % 4) '=' =
    e1 :: e2 :: e3 :: e4 ::
      (M ++ List.replicate ((4 - M.length % 4) % 4) '=') := by
  simp only [List.cons_append, List.length_cons]
  have h : (4 - (M.length + 1 + 1 + 1 + 1) % 4) % 4
      = (4 - M.length % 4) % 4 := by
    omega
  rw [h]


theorem b64_roundtrip_aux (l : List Nat) (h : ∀ x ∈ l, x < 256) :
    b64DecodeCore ((strippedUrl l).map fromUrlChar ++
      List.replicate
        ((4 - ((strippedUrl l).map fromUrlChar).length % 4) % 4) '=') = l := by
  match l with
  | [] => rfl
  | [a] =>
    have ha : a < 256 := h a (by simp)
    have h1 : a / 4 < 64 := by omega
    have h2 : a % 4 * 16 < 64 := by omega
    have hstrip : strippedUrl [a] =
        [toUrlChar (b64CharOf (a / 4)),
         toUrlChar (b64CharOf (a % 4 * 16))] := by
      unfold strippedUrl
      simp only [b64EncodeCore, List.map_cons, List.map_nil, toUrlChar_pad]
      rw [filter_keep_cons _ _ (toUrl_ne_pad _ h1),
        filter_keep_cons _ _ (toUrl_ne_pad _ h2),
        filter_pad_cons, filter_pad_cons]
      rfl
    rw [hstrip]
    simp only [List.map_cons, List.map_nil, fromUrl_toUrl_b64 _ h1,
      fromUrl_toUrl_b64 _ h2]
    show b64DecodeCore
      [b64CharOf (a / 4), b64CharOf (a % 4 * 16), '=', '='] = [a]
    have hd : b64DecodeCore
        [b64CharOf (a / 4), b64CharOf (a % 4 * 16), '=', '='] =
        [b64ValOf (b64CharOf (a / 4)) * 4 +
          b64ValOf (b64CharOf (a % 4 * 16)) / 16] := by
      simp [b64DecodeCore]
    rw [hd, b64ValOf_charOf _ h1, b64ValOf_charOf _ h2]
    have hval : a / 4 * 4 + a % 4 * 16 / 16 = a := by omega
    rw [hval]
  | [a, b] =>
    have ha : a < 256 := h a (by simp)
    have hb : b < 256 := h b (by simp)
    have h1 : a / 4 < 64 := by omega
    have h2 : a % 4 * 16 + b / 16 < 64 := by omega
    have h3 : b % 16 * 4 < 64 := by omega
    have hstrip : strippedUrl [a, b] =
        [toUrlChar (b64CharOf (a / 4)),
         toUrlChar (b64CharOf (a % 4 * 16 + b / 16)),
         toUrlChar (b64CharOf (b % 16 * 4))] := by
      unfold strippedUrl
      simp only [b64EncodeCore, List.map_cons, List.map_nil, toUrlChar_pad]
      rw [filter_keep_cons _ _ (toUrl_ne_pad _ h1),
        filter_keep_cons _ _ (toUrl_ne_pad _ h2),
        filter_keep_cons _ _ (toUrl_ne_pad _ h3),
        filter_pad_cons]
      rfl
    rw [hstrip]
    simp only [List.map_cons, List.map_nil, fromUrl_toUrl_b64 _ h1,
      fromUrl_toUrl_b64 _ h2, fromUrl_toUrl_b64 _ h3]
    show b64DecodeCore
      [b64CharOf (a / 4), b64CharOf (a % 4 * 16 + b / 16),
       b64CharOf (b % 16 * 4), '='] = [a, b]
    have hd : b64DecodeCore
        [b64CharOf (a / 4), b64CharOf (a % 4 * 16 + b / 16),
         b64CharOf (b % 16 * 4), '='] =
        [b64ValOf (b64CharOf (a / 4)) * 4 +
          b64ValOf (b64CharOf (a % 4 * 16 + b / 16)) / 16,
         b64ValOf (b64CharOf (a % 4 * 16 + b / 16)) % 16 * 16 +
          b64ValOf (b64CharOf (b % 16 * 4)) / 4] := by
      simp [b64DecodeCore, b64CharOf_ne_pad _ h3]
    rw [hd, b64ValOf_charOf _ h1, b64ValOf_charOf _ h2,
      b64ValOf_charOf _ h3]
    have hv1 : a / 4 * 4 + (a % 4 * 16 + b / 16) / 16 = a := by omega
    have hv2 : (a % 4 * 16 + b / 16) % 16 * 16 + b % 16 * 4 / 4 = b := by
      omega
    rw [hv1, hv2]
  | a :: b :: c :: rest =>
    have ha : a < 256 := h a (by simp)
    have hb : b < 256 := h b (by simp)
    have hc : c < 256 := h c (by simp)
    have ih := b64_roundtrip_aux rest (fun x hx => h x (by simp [hx]))
    have h1 : a / 4 < 64 := by omega
    have h2 : a % 4 * 16 + b / 16 < 64 := by omega
    have h3 : b % 16 * 4 + c / 64 < 64 := by omega
    have h4 : c % 64 < 64 := by omega
    have hstrip : strippedUrl (a :: b :: c :: rest) =
        toUrlChar (b64CharOf (a / 4)) ::
        toUrlChar (b64CharOf (a % 4 * 16 + b / 16)) ::
        toUrlChar (b64CharOf (b % 16 * 4 + c / 64)) ::
        toUrlChar (b64CharOf (c % 64)) :: strippedUrl rest := by
      unfold strippedUrl
      simp only [b64EncodeCore, List.map_cons]
      rw [filter_keep_cons _ _ (toUrl_ne_pad _ h1),
        filter_keep_cons _ _ (toUrl_ne_pad _ h2),
        filter_keep_cons _ _ (toUrl_ne_pad _ h3),
        filter_keep_cons _ _ (toUrl_ne_pad _ h4)]
    rw [hstrip]
    simp only [List.map_cons, fromUrl_toUrl_b64 _ h1, fromUrl_toUrl_b64 _ h2,
      fromUrl_toUrl_b64 _ h3, fromUrl_toUrl_b64 _ h4]
    rw [pad_cons4]
    have hd : b64DecodeCore
        (b64CharOf (a / 4) :: b64CharOf (a % 4 * 16 + b / 16) ::
         b64CharOf (b % 16 * 4 + c / 64) :: b64CharOf (c % 64) ::
         ((strippedUrl rest).map fromUrlChar ++
           List.replicate
             ((4 - ((strippedUrl rest).map fromUrlChar).length % 4) % 4)
             '=')) =
        (b64ValOf (b64CharOf (a / 4)) * 4 +
          b64ValOf (b64CharOf (a % 4 * 16 + b / 16)) / 16) ::
        (b64ValOf (b64CharOf (a % 4 * 16 + b / 16)) % 16 * 16 +
          b64ValOf (b64CharOf (b % 16 * 4 + c / 64)) / 4) ::
        (b64ValOf (b64CharOf (b % 16 * 4 + c / 64)) % 4 * 64 +
          b64ValOf (b64CharOf (c % 64))) ::
        b64DecodeCore ((strippedUrl rest).map fromUrlChar ++
          List.replicate
            ((4 - ((strippedUrl rest).map fromUrlChar).length % 4) % 4)
            '=') := by
      simp [b64DecodeCore, b64CharOf_ne_pad _ h3, b64CharOf_ne_pad _ h4]
    rw [hd, b64ValOf_charOf _ h1, b64ValOf_charOf _ h2, b64ValOf_charOf _ h3,
      b64ValOf_charOf _ h4]
    have hv1 : a / 4 * 4 + (a % 4 * 16 + b / 16) / 16 = a := by omega
    have hv2 : (a % 4 * 16 + b / 16) % 16 * 16 + (b % 16 * 4 + c / 64) / 4
        = b := by omega
    have hv3 : (b % 16 * 4 + c / 64) % 4 * 64 + c % 64 = c := by omega
    rw [hv1, hv2, hv3, ih]

/-- C10: the base64url codec round-trips — decoding the base64url
encoding of any byte sequence returns the original bytes:
base64urlToBuffer applied to bufferToBase64url of b equals b. -/
theorem claim10_base64url_roundtrip (b : List Nat) (hb : validBytes b) :
    base64urlToBuffer (bufferToBase64url b) = b := by
  show b64DecodeCore ((strippedUrl b).map fromUrlChar ++
    List.replicate
      ((4 - ((strippedUrl b).map fromUrlChar).length % 4) % 4) '=') = b
  exact b64_roundtrip_aux b hb

/-- C10 witness: the round trip evaluated on the bytes 1, 2, 3, 4. -/
theorem claim10_witness :
    validBytes [1, 2, 3, 4] ∧
    base64urlToBuffer (bufferToBase64url [1, 2, 3, 4]) = [1, 2, 3, 4] :=
  ⟨by decide, claim10_base64url_roundtrip [1, 2, 3, 4] (by decide)⟩
